import Mathlib

/-!
Verification development for the HIRI map server collector/cache subsystem
(`servermapv3/servermapv3.py`).

The Python module keeps, per collection key `(project_id, device_code, tabla)`,
four global dictionaries: `DayRows` (day -> list of plotted records), `DayFP`
(day -> set of fingerprints), `Days` (sorted list of known days) and an
append-only on-disk log `<day>.jsonl` per day.  All operations touch only the
entry of the one key they are given, so the embedding below models the state
slice attached to a single collection key; theorems quantified over that state
hold for every key.

Modelling conventions:
* JSON payloads are embedded as the inductive `JVal`; Python dicts become
  association lists (upstream JSON objects have unique keys).
* Machine floats are modelled as `Rat` (the program only parses, compares and
  stores them; it never does float arithmetic on the cached values).
* The record fields `device_code`, `time` and `envio_n` are passed through
  untouched by the Python code and serialized with `f"..."`/`json.dumps`; the
  upstream serves them as JSON strings, numbers or null, and the embedding
  stores their Python string rendering (`none` for null/missing).  Rendering of
  non-integer numeric passthrough values is approximate and unused by theorems.
* Wall-clock fields (`last_ok_ts`) and logging/websocket side effects are not
  modelled; no claim mentions them.
* `datetime.fromisoformat(...).timestamp()` is modelled by an executable
  epoch-seconds function over the `YYYY-MM-DD[sep]HH:MM[:SS]` shapes this
  system exchanges, in UTC.  The real call uses the host timezone, a constant
  shift that cancels in every comparison the code performs.
-/

/-- A JSON value, as produced by `resp.json()`. -/
inductive JVal : Type where
  | jnull : JVal
  | jbool : Bool → JVal
  | jnum : Rat → JVal
  | jstr : String → JVal
  | jarr : List JVal → JVal
  | jobj : List (String × JVal) → JVal

/-- A raw upstream record: one JSON object, i.e. a Python dict. -/
abbrev RawRow : Type := List (String × JVal)

/-- Lookup in an association list modelling a Python dict (`d.get(k)`). -/
def aget {α : Type} : List (String × α) → String → Option α
  | [], _ => none
  | (k', v') :: rest, k => if k' = k then some v' else aget rest k

/-- Update-or-insert in an association list modelling `d[k] = v`. -/
def aset {α : Type} : List (String × α) → String → α → List (String × α)
  | [], k, v => [(k, v)]
  | (k', v') :: rest, k, v =>
      if k' = k then (k, v) :: rest else (k', v') :: aset rest k v

-- ==== Schema constants (copied byte-for-byte from the source CONFIG block) ====

def UPSTREAM_BASE : String := "https://api-sensores.cmasccp.cl/listarDatosEstructuradosV2"

def KEY_TIME : String := "fecha"
def KEY_DEVICE_CODE : String := "codigo_interno"
def KEY_PM25 : String := "PMS5003 [Material particulado PM 2.5 (¬µg/m¬≥)]"
def KEY_PM1 : String := "PMS5003 [Material particulado PM 1.0 (¬µg/m¬≥)]"
def KEY_PM10 : String := "PMS5003 [Material particulado PM 10 (¬µg/m¬≥)]"
def KEY_HUM : String := "PMS5003 [Humedad (%)]"
def KEY_TEMP : String := "PMS5003 [Grados celcius (¬∞C)]"
def KEY_VBAT : String := "Divisor de Voltaje [Voltaje (V)]"
def KEY_SIM_LAT : String := "SIM7600G [Latitud (¬∞)]"
def KEY_SIM_LON : String := "SIM7600G [Longitud (¬∞)]"
def KEY_SIM_CSQ : String := "SIM7600G [Intensidad se√±al telef√≥nica (Adimensional)]"
def KEY_SIM_SATS : String := "SIM7600G [Satelites (int)]"
def KEY_SIM_SPEED : String := "SIM7600G [Velocidad_km/h (km/h)]"
def KEY_META_LAT : String := "Metadatos Estacion [Latitud (¬∞)]"
def KEY_META_LON : String := "Metadatos Estacion [Longitud (¬∞)]"
def KEY_NUM_ENV : String := "Metadatos Estacion [Numero de envios (Numeral)]"

-- ==== Python string primitives, modelled structurally over the char list ====

/-- The whitespace set of Python `str.strip()` (ASCII part). -/
def isPySpace (c : Char) : Bool :=
  c = ' ' ∨ c = '\t' ∨ c = '\n' ∨ c = '\r' ∨ c = '\x0b' ∨ c = '\x0c'

/-- Python `s.strip()`. -/
def pyStrip (s : String) : String :=
  ⟨((s.data.dropWhile isPySpace).reverse.dropWhile isPySpace).reverse⟩

/-- Python `s.lower()` (ASCII case folding, all this program's inputs). -/
def pyLower (s : String) : String :=
  ⟨s.data.map Char.toLower⟩

/-- Helper for `pyReplace`: scan the text left to right; a positive skip
counter swallows the tail of a matched pattern occurrence. -/
def replAux (pat rep : List Char) : List Char → Nat → List Char
  | [], _ => []
  | _ :: rest, k + 1 => replAux pat rep rest k
  | c :: rest, 0 =>
      if pat.isPrefixOf (c :: rest) then rep ++ replAux pat rep rest (pat.length - 1)
      else c :: replAux pat rep rest 0

/-- Python `s.replace(pat, rep)` for a nonempty pattern: replace every
non-overlapping occurrence, scanning left to right. -/
def pyReplace (s pat rep : String) : String :=
  if pat = "" then s else ⟨replAux pat.data rep.data s.data 0⟩

/-- Helper for `pyContains`: does `pat` occur at any position? -/
def containsAux (pat : List Char) : List Char → Bool
  | [] => pat.isEmpty
  | c :: rest => pat.isPrefixOf (c :: rest) || containsAux pat rest

-- ==== Python float() on decimal literals ====

/-- Numeric value of a digit list (most significant first). -/
def digitsToNat (l : List Char) : Nat :=
  l.foldl (fun a c => a * 10 + (c.toNat - 48)) 0

/-- Split a character list at the first `e`/`E` (exponent marker). -/
def splitExp : List Char → List Char × Option (List Char)
  | [] => ([], none)
  | c :: r =>
      if c = 'e' ∨ c = 'E' then ([], some r)
      else
        let p := splitExp r
        (c :: p.1, p.2)

/-- Split a character list at the first decimal point. -/
def splitDot : List Char → List Char × Option (List Char)
  | [] => ([], none)
  | c :: r =>
      if c = '.' then ([], some r)
      else
        let p := splitDot r
        (c :: p.1, p.2)

/-- Parse an optionally signed nonempty digit string as an integer. -/
def parseSignedNat (l : List Char) : Option Int :=
  let sg : Int × List Char :=
    match l with
    | '+' :: r => (1, r)
    | '-' :: r => (-1, r)
    | r => (1, r)
  if sg.2.isEmpty then none
  else if sg.2.all Char.isDigit then some (sg.1 * (digitsToNat sg.2 : Int))
  else none

/-- CPython `float(s)` on (already stripped) decimal literals: optional sign,
digits with at most one point and at least one digit, optional exponent.
Special spellings (`inf`, `nan`, underscores) are outside the fragment this
program feeds to `float` and are rejected. -/
def pyFloat (s : String) : Option Rat :=
  let sg : Int × List Char :=
    match s.data with
    | '+' :: r => (1, r)
    | '-' :: r => (-1, r)
    | r => (1, r)
  let me := splitExp sg.2
  let ifr := splitDot me.1
  let ip := ifr.1
  let fp := (ifr.2).getD []
  if (ip.all Char.isDigit && fp.all Char.isDigit && (!ip.isEmpty || !fp.isEmpty)) then
    let base : Rat := (digitsToNat ip : Rat) + (digitsToNat fp : Rat) / ((10 : Rat) ^ fp.length)
    let signed : Rat := (sg.1 : Rat) * base
    match me.2 with
    | none => some signed
    | some e =>
        match parseSignedNat e with
        | none => none
        | some k => some (signed * (10 : Rat) ^ k)
  else none

/-- The unit suffixes `to_float` strips, in source order. -/
def FLOAT_TOKENS : List String := ["¬µg/m¬≥", "ug/m3", "km/h", "V", "%", "¬∞C"]

/-- The token-stripping loop of `to_float`: each round replaces the token by
the empty string and strips whitespace. -/
def stripTokens (s : String) : String :=
  FLOAT_TOKENS.foldl (fun acc tok => pyStrip (pyReplace acc tok "")) s

/-- `to_float(x)` from the source: `None` stays missing; ints/floats (and
bools, which are ints in Python) pass through; strings are stripped, comma
decimal separators normalized, `""`/`nan`/`null`/`none` rejected, unit
suffixes removed, then parsed; containers fail `float(str(x))` and yield
`None`. The argument is `row.get(k)`, hence an `Option JVal`. -/
def to_float : Option JVal → Option Rat
  | none => none
  | some JVal.jnull => none
  | some (JVal.jbool b) => some (if b then 1 else 0)
  | some (JVal.jnum q) => some q
  | some (JVal.jarr _) => none
  | some (JVal.jobj _) => none
  | some (JVal.jstr str) =>
      let s := pyReplace (pyStrip str) "," "."
      if s = "" ∨ pyLower s ∈ ["nan", "null", "none"] then none
      else pyFloat (stripTokens s)

/-- `choose_coords(row)`: SIM lat/lon if both parse, else the Metadatos pair;
the two sources are never mixed. -/
def choose_coords (row : RawRow) : Option Rat × Option Rat :=
  let lat := to_float (aget row KEY_SIM_LAT)
  let lon := to_float (aget row KEY_SIM_LON)
  match lat, lon with
  | some la, some lo => (some la, some lo)
  | _, _ => (to_float (aget row KEY_META_LAT), to_float (aget row KEY_META_LON))

/-- `build_upstream_url` from the source. -/
def build_upstream_url (project_id device_code tabla : String) (limite offset : Nat) : String :=
  UPSTREAM_BASE ++ "?tabla=" ++ tabla ++ "&disp.id_proyecto=" ++ project_id ++
    (if device_code = "" then "" else "&disp.codigo_interno=" ++ device_code) ++
    "&limite=" ++ toString limite ++ "&offset=" ++ toString offset

/-- `extract_rows(payload)`: `payload.get("data", {}).get("tableData", [])`
filtered to dict entries.  `none` marks the inputs on which CPython raises
(`data.get` on a non-dict, iterating a non-iterable `tableData`), which kills
the worker thread instead of returning a row list; iterating a string or dict
yields non-dict elements, hence an empty result. -/
def extract_rows (payload : JVal) : Option (List RawRow) :=
  match payload with
  | JVal.jobj fields =>
      match aget fields "data" with
      | none => some []
      | some (JVal.jobj dfields) =>
          match aget dfields "tableData" with
          | none => some []
          | some (JVal.jarr xs) =>
              some (xs.filterMap fun x =>
                match x with
                | JVal.jobj fs => some fs
                | _ => none)
          | some (JVal.jstr _) => some []
          | some (JVal.jobj _) => some []
          | some _ => none
      | some _ => none
  | _ => some []

/-- Substring test, modelling Python `pat in msg`. -/
def pyContains (hay pat : String) : Bool :=
  containsAux pat.data hay.data

/-- `is_no_records_payload(payload)`.  The `status` field only compares equal
to `"fail"` (after `str(...).lower()`) when it is a JSON string, so the other
shapes return `False` directly; `error`/`message` values are modelled as
strings or absent, the shapes this upstream serves. -/
def is_no_records_payload (payload : JVal) : Bool :=
  match payload with
  | JVal.jobj fields =>
      (match aget fields "status" with
       | some (JVal.jstr s) => pyLower s = "fail"
       | _ => false)
      &&
      (let msg :=
        match aget fields "error" with
        | some (JVal.jstr s) =>
            if s ≠ "" then s
            else
              match aget fields "message" with
              | some (JVal.jstr s2) => s2
              | _ => ""
        | _ =>
            match aget fields "message" with
            | some (JVal.jstr s2) => s2
            | _ => ""
       pyContains (pyLower msg) "no hay registros")
  | _ => false

-- ==== Normalized records and the raw -> plotted conversion ====

/-- One normalized ("plotted") record, the dict built by
`process_raw_to_plotted` and stored in `DayRows` and on disk. -/
structure Plotted : Type where
  device_code : Option String
  time : Option String
  envio_n : Option String
  lat : Rat
  lon : Rat
  pm25 : Rat
  pm1 : Option Rat
  pm10 : Option Rat
  temp_pms : Option Rat
  hum : Option Rat
  vbat : Option Rat
  csq : Option Rat
  sats : Option Rat
  speed_kmh : Option Rat
deriving DecidableEq, Repr

/-- Python string rendering of a passthrough field value (`none` for
null/missing).  Non-integer numeric rendering is approximate; no theorem
depends on it. -/
def jpass : Option JVal → Option String
  | some (JVal.jstr s) => some s
  | some (JVal.jnum q) => some (if q.den = 1 then toString q.num else toString q)
  | some (JVal.jbool b) => some (if b then "True" else "False")
  | _ => none

/-- `process_raw_to_plotted(raw_rows)`: keep exactly the rows whose resolved
coordinates and PM2.5 all parse, building the plotted dict. -/
def process_raw_to_plotted (raws : List RawRow) : List Plotted :=
  raws.filterMap fun row =>
    match choose_coords row with
    | (some la, some lo) =>
        match to_float (aget row KEY_PM25) with
        | some pm => some
            { device_code := jpass (aget row KEY_DEVICE_CODE)
              time := jpass (aget row KEY_TIME)
              envio_n := jpass (aget row KEY_NUM_ENV)
              lat := la
              lon := lo
              pm25 := pm
              pm1 := to_float (aget row KEY_PM1)
              pm10 := to_float (aget row KEY_PM10)
              temp_pms := to_float (aget row KEY_TEMP)
              hum := to_float (aget row KEY_HUM)
              vbat := to_float (aget row KEY_VBAT)
              csq := to_float (aget row KEY_SIM_CSQ)
              sats := to_float (aget row KEY_SIM_SATS)
              speed_kmh := to_float (aget row KEY_SIM_SPEED) }
        | none => none
    | _ => none

-- ==== Day store ====

/-- `day_from_time(ts)`: `None`/empty is falsy and yields no day; otherwise
the first 10 characters of the timestamp. -/
def day_from_time : Option String → Option String
  | none => none
  | some s => if s = "" then none else some (s.take 10)

/-- Python `f"..."` rendering of an optional string (`None` renders as
`"None"`). -/
def pyStrOpt : Option String → String
  | none => "None"
  | some s => s

/-- The fingerprint `f"(time)|(envio_n)"` used by both the loader and the
ingest path. -/
def fpOf (r : Plotted) : String :=
  pyStrOpt r.time ++ "|" ++ pyStrOpt r.envio_n

/-- One line of a `<day>.jsonl` log file: a serialized record, or a line that
`json.loads` rejects (skipped by the loader). -/
inductive DiskLine : Type where
  | ok : Plotted → DiskLine
  | bad : DiskLine
deriving DecidableEq, Repr

/-- The per-collection-key state slice of the Python module: `DayRows[key]`,
`DayFP[key]`, `Days[key]` and the key's on-disk day files. -/
structure Store : Type where
  mem : List (String × List Plotted)
  fps : List (String × List String)
  days : List String
  disk : List (String × List DiskLine)
deriving DecidableEq, Repr

def emptyStore : Store := { mem := [], fps := [], days := [], disk := [] }

/-- In-memory rows of a day bucket (`DayRows[key][day]`, `[]` when unloaded). -/
def bucketOf (s : Store) (d : String) : List Plotted :=
  (aget s.mem d).getD []

/-- Fingerprint set of a day (`DayFP[key][day]`), modelled as the list of
fingerprints in insertion order. -/
def fpsOf (s : Store) (d : String) : List String :=
  (aget s.fps d).getD []

/-- String sort, modelling Python `sorted` on a list of strings. -/
def pySortStr (l : List String) : List String :=
  l.mergeSort (fun a b => a ≤ b)

/-- Python `sorted(set(l))`: ascending distinct elements. -/
def pySortedSet (l : List String) : List String :=
  pySortStr l.eraseDups

/-- The line loop of `load_day_from_disk`: parse each line, skip malformed
ones, skip fingerprints already seen, append the rest. -/
def loadLoop : List DiskLine → List Plotted → List String → List Plotted × List String
  | [], rows, fps => (rows, fps)
  | DiskLine.bad :: rest, rows, fps => loadLoop rest rows fps
  | DiskLine.ok r :: rest, rows, fps =>
      if fpOf r ∈ fps then loadLoop rest rows fps
      else loadLoop rest (rows ++ [r]) (fps ++ [fpOf r])

/-- `load_day_from_disk(key, day)`: no-op when the day is already in memory;
otherwise rebuild the day's rows and fingerprint set from the log file and
register the day. -/
def load_day_from_disk (s : Store) (day : String) : Store :=
  if (aget s.mem day).isSome then s
  else
    let lines := (aget s.disk day).getD []
    let p := loadLoop lines [] []
    { s with
      mem := aset s.mem day p.1
      fps := aset s.fps day p.2
      days := if day ∈ s.days then s.days else pySortStr (s.days ++ [day]) }

/-- `added_per_day[d] += 1` on a `defaultdict(int)` (insertion order kept). -/
def bump : List (String × Nat) → String → List (String × Nat)
  | [], d => [(d, 1)]
  | (k, n) :: rest, d =>
      if k = d then (k, n + 1) :: rest else (k, n) :: bump rest d

/-- The record loop of `add_to_day_cache`: compute the day (skip records
without one), lazily load it, skip already-seen fingerprints, and append both
the fingerprint and the record. -/
def ingestLoop : Store → List (String × Nat) → List Plotted → Store × List (String × Nat)
  | s, added, [] => (s, added)
  | s, added, r :: rest =>
      match day_from_time r.time with
      | none => ingestLoop s added rest
      | some d =>
          let s1 := load_day_from_disk s d
          if fpOf r ∈ fpsOf s1 d then ingestLoop s1 added rest
          else
            let s2 : Store :=
              { s1 with
                fps := aset s1.fps d (fpsOf s1 d ++ [fpOf r])
                mem := aset s1.mem d (bucketOf s1 d ++ [r]) }
            ingestLoop s2 (bump added d) rest

/-- The write-back loop of `add_to_day_cache`: append the last `n` freshly
added rows of each touched day to that day's log file. -/
def flushLoop : Store → List (String × Nat) → Store
  | s, [] => s
  | s, (d, n) :: rest =>
      if n = 0 then flushLoop s rest
      else
        let rows := bucketOf s d
        let newLines := (rows.drop (rows.length - n)).map DiskLine.ok
        flushLoop
          { s with disk := aset s.disk d (((aget s.disk d).getD []) ++ newLines) }
          rest

/-- `add_to_day_cache(key, plotted)`: ingest with dedup, persist the added
tail of each touched day, and refresh the sorted day list.  Returns the new
state together with `added_per_day`. -/
def add_to_day_cache (s : Store) (plotted : List Plotted) : Store × List (String × Nat) :=
  let p := ingestLoop s [] plotted
  let s2 := flushLoop p.1 p.2
  let s3 :=
    if p.2.isEmpty then s2
    else { s2 with days := pySortedSet (s2.days ++ p.2.map Prod.fst) }
  (s3, p.2)

/-- The Day Store read (`GetDay`): lazily load the day, then return the
in-memory rows (the `DayRows[key].get(day, [])` read of `api_data`). -/
def getDay (s : Store) (day : String) : Store × List Plotted :=
  let s1 := load_day_from_disk s day
  (s1, bucketOf s1 day)

-- ==== Timestamp parsing for the since filter ====

/-- Python `s.isdigit()`: nonempty and all digits. -/
def pyIsdigit (s : String) : Bool :=
  !s.data.isEmpty && s.data.all Char.isDigit

/-- Gregorian leap year. -/
def isLeap (y : Nat) : Bool :=
  (y % 4 = 0 && y % 100 ≠ 0) || y % 400 = 0

/-- Days in a month. -/
def daysInMonth (y m : Nat) : Nat :=
  if m = 2 then (if isLeap y then 29 else 28)
  else if m = 4 ∨ m = 6 ∨ m = 9 ∨ m = 11 then 30
  else 31

/-- Days in the months before month `m` of year `y`. -/
def daysBeforeMonth (y m : Nat) : Nat :=
  (List.range (m - 1)).foldl (fun a i => a + daysInMonth y (i + 1)) 0

/-- Days between 0001-01-01 and the start of year `y` (proleptic Gregorian,
as `datetime.toordinal`). -/
def daysBeforeYear (y : Nat) : Nat :=
  365 * (y - 1) + (y - 1) / 4 - (y - 1) / 100 + (y - 1) / 400

/-- Days from the Unix epoch to the given civil date. -/
def daysSinceEpoch (y m d : Nat) : Int :=
  (daysBeforeYear y + daysBeforeMonth y m + (d - 1) : Int) - 719162

/-- Value of a two-digit field, `none` unless both characters are digits. -/
def parse2 (a b : Char) : Option Nat :=
  if a.isDigit && b.isDigit then some ((a.toNat - 48) * 10 + (b.toNat - 48))
  else none

/-- Value of a four-digit field. -/
def parse4 (a b c d : Char) : Option Nat :=
  if a.isDigit && b.isDigit && c.isDigit && d.isDigit then
    some ((((a.toNat - 48) * 10 + (b.toNat - 48)) * 10 + (c.toNat - 48)) * 10 + (d.toNat - 48))
  else none

/-- Parse the `HH:MM[:SS]` tail accepted by `datetime.fromisoformat`. -/
def parseClock : List Char → Option (Nat × Nat × Nat)
  | [h1, h2, ':', m1, m2] =>
      match parse2 h1 h2, parse2 m1 m2 with
      | some h, some mi => if h ≤ 23 && mi ≤ 59 then some (h, mi, 0) else none
      | _, _ => none
  | [h1, h2, ':', m1, m2, ':', s1, s2] =>
      match parse2 h1 h2, parse2 m1 m2, parse2 s1 s2 with
      | some h, some mi, some se =>
          if h ≤ 23 && mi ≤ 59 && se ≤ 59 then some (h, mi, se) else none
      | _, _, _ => none
  | _ => none

/-- `datetime.fromisoformat(s).timestamp()` on the `YYYY-MM-DD[sep]HH:MM[:SS]`
shapes this system exchanges, as UTC epoch seconds; `none` where
`fromisoformat` raises. -/
def isoEpoch (s : String) : Option Int :=
  match s.data with
  | y1 :: y2 :: y3 :: y4 :: '-' :: mo1 :: mo2 :: '-' :: d1 :: d2 :: rest =>
      match parse4 y1 y2 y3 y4, parse2 mo1 mo2, parse2 d1 d2 with
      | some y, some mo, some dd =>
          if 1 ≤ y && 1 ≤ mo && mo ≤ 12 && 1 ≤ dd && dd ≤ daysInMonth y mo then
            match rest with
            | [] => some (daysSinceEpoch y mo dd * 86400)
            | _ :: clock =>
                match parseClock clock with
                | some t =>
                    some (daysSinceEpoch y mo dd * 86400 + (t.1 * 3600 + t.2.1 * 60 + t.2.2 : Nat))
                | none => none
          else none
      | _, _, _ => none
  | _ => none

/-- `to_epoch(s)` from the day-mode handler: `0.0` for a falsy or unparsable
string, the numeric value of an all-digit string, otherwise the timestamp of
`fromisoformat(s.replace("Z",""))`. -/
def to_epoch (s : String) : Int :=
  if s = "" then 0
  else if pyIsdigit s then (digitsToNat s.data : Int)
  else
    match isoEpoch (pyReplace s "Z" "") with
    | some e => e
    | none => 0

/-- The since-filter body of the day-mode handler: keep a row when its `time`
field is truthy, parses, and is strictly later than the threshold. -/
def keepSince (since : String) (r : Plotted) : Bool :=
  match r.time with
  | none => false
  | some ts =>
      if ts = "" then false
      else
        match isoEpoch (pyReplace ts "Z" "") with
        | none => false
        | some te => to_epoch since < te

/-- The sort key `x.get("time") or ""` of the day-mode handler. -/
def timeKey (r : Plotted) : String :=
  match r.time with
  | none => ""
  | some ts => ts

/-- The day-mode rows pipeline of `api_data` for one device: lazy load, the
optional strictly-greater `since` filter, then the stable sort by time key.
`since = none` is the absent query parameter; the empty string is falsy and
also skips the filter. -/
def api_day_rows (s : Store) (day : String) (since : Option String) : Store × List Plotted :=
  let s1 := load_day_from_disk s day
  let rows := bucketOf s1 day
  let rows1 :=
    match since with
    | none => rows
    | some sv => if sv = "" then rows else rows.filter (keepSince sv)
  (s1, rows1.mergeSort (fun a b => timeKey a ≤ timeKey b))

-- ==== Collector loop ====

/-- The cursor of one collection key (`Cursor[key]`), without the wall-clock
`last_ok_ts` field. -/
structure Cur : Type where
  offset : Nat
  pages : Nat
  finished : Bool
  lastError : Option String
  lastUrl : String
deriving DecidableEq, Repr

def initialCur : Cur :=
  { offset := 0, pages := 0, finished := false, lastError := none, lastUrl := "" }

/-- The body of one HTTP response: not JSON at all, or a parsed value. -/
inductive Body : Type where
  | notJson : Body
  | json : JVal → Body

/-- The outcome of one `session.get` as the collector sees it: a
`requests.exceptions.RequestException` (connection failure, timeout, retries
exhausted) carrying its rendered message, or a completed response. -/
inductive HResp : Type where
  | netError : String → HResp
  | ok : Nat → Body → HResp

/-- What one loop iteration did (used to phrase the claims; the Python code
distinguishes the same cases by control flow). `crashed` marks the payload
shapes on which CPython raises a non-`RequestException` and kills the worker
thread. -/
inductive Outcome : Type where
  | pagAdvanced : Outcome
  | pagEnd : Outcome
  | errorRetry : Outcome
  | crashed : Outcome
  | headNoRecords : Outcome
  | headIngested : Outcome
deriving DecidableEq, Repr

/-- One iteration of `collector_loop` for key `(p, d, t)`, given the page
size and the upstream's response to the one request this iteration makes.
Mirrors the source: the paginating branch re-raises on a malformed body via
the second `resp.json()` (a `RequestException`, hence caught and retried),
while the head-polling branch never touches the cursor on success. -/
def loop_body (p d t : String) (st : Store) (cur : Cur) (limit : Nat)
    (resp : HResp) : Store × Cur × Outcome :=
  if cur.finished = false then
    let url := build_upstream_url p d t limit cur.offset
    match resp with
    | HResp.netError m => (st, { cur with lastError := some m }, Outcome.errorRetry)
    | HResp.ok status body =>
        let payload0 := match body with | Body.json v => v | Body.notJson => JVal.jobj []
        if status = 400 ∧ is_no_records_payload payload0 then
          (st, { cur with finished := true, lastError := none, lastUrl := url },
           Outcome.pagEnd)
        else if 400 ≤ status then
          (st, { cur with lastError := some ("HTTPError: " ++ toString status) },
           Outcome.errorRetry)
        else
          match body with
          | Body.notJson =>
              (st, { cur with lastError := some "JSONDecodeError: Expecting value" },
               Outcome.errorRetry)
          | Body.json v =>
              match extract_rows v with
              | none => (st, cur, Outcome.crashed)
              | some raws =>
                  let plotted := process_raw_to_plotted raws
                  let p1 := add_to_day_cache st plotted
                  (p1.1,
                   { cur with
                     offset := cur.offset + raws.length
                     pages := cur.pages + 1
                     finished := decide (raws.length < limit)
                     lastError := none
                     lastUrl := url },
                   Outcome.pagAdvanced)
  else
    match resp with
    | HResp.netError m => (st, { cur with lastError := some m }, Outcome.errorRetry)
    | HResp.ok status body =>
        match body with
        | Body.notJson =>
            if 400 ≤ status then
              (st, { cur with lastError := some ("HTTPError: " ++ toString status) },
               Outcome.errorRetry)
            else
              let p1 := add_to_day_cache st (process_raw_to_plotted [])
              (p1.1, cur, Outcome.headIngested)
        | Body.json v =>
            if status = 400 ∧ is_no_records_payload v then
              (st, cur, Outcome.headNoRecords)
            else if 400 ≤ status then
              (st, { cur with lastError := some ("HTTPError: " ++ toString status) },
               Outcome.errorRetry)
            else
              match extract_rows v with
              | none => (st, cur, Outcome.crashed)
              | some raws =>
                  let p1 := add_to_day_cache st (process_raw_to_plotted raws)
                  (p1.1, cur, Outcome.headIngested)

-- ==== Spec-side notion used by claim C6 ====

/-- Modelled from the spec: a "valid calendar-day-prefixed timestamp", whose
first 10 characters form a `YYYY-MM-DD` calendar day.  The source has no such
check; this definition exists only to state claim C6 against the code. -/
def specCalendarDayPrefixed (s : String) : Bool :=
  match (s.take 10).data with
  | [y1, y2, y3, y4, '-', m1, m2, '-', d1, d2] =>
      match parse4 y1 y2 y3 y4, parse2 m1 m2, parse2 d1 d2 with
      | some y, some mo, some dd =>
          1 ≤ y && 1 ≤ mo && mo ≤ 12 && 1 ≤ dd && dd ≤ daysInMonth y mo
      | _, _, _ => false
  | _ => false

-- ==== Invariant predicates ====

/-- Every in-memory day bucket holds only records whose timestamp maps to
that day. -/
def memCoherent (s : Store) : Prop :=
  ∀ d r, r ∈ bucketOf s d → day_from_time r.time = some d

/-- Every on-disk day log holds only records whose timestamp maps to that
day. -/
def diskCoherent (s : Store) : Prop :=
  ∀ d r, DiskLine.ok r ∈ (aget s.disk d).getD [] → day_from_time r.time = some d

/-- Each day's fingerprint set is exactly the fingerprints of its bucket. -/
def fpsMatch (s : Store) : Prop :=
  ∀ d, fpsOf s d = (bucketOf s d).map fpOf

/-- The state invariant the Python module maintains for each key. -/
def good (s : Store) : Prop :=
  memCoherent s ∧ diskCoherent s ∧ fpsMatch s

/-- The in-place append of one fresh record inside `add_to_day_cache`. -/
def addRecord (s1 : Store) (d : String) (r : Plotted) : Store :=
  { s1 with
    fps := aset s1.fps d (fpsOf s1 d ++ [fpOf r])
    mem := aset s1.mem d (bucketOf s1 d ++ [r]) }

/-- A fingerprint is "seen" for a loaded day: the day is resident in memory
and the fingerprint is in its dedup set.  Once established, every day-store
operation preserves it. -/
def seenIn (s : Store) (d fp : String) : Prop :=
  (aget s.mem d).isSome ∧ fp ∈ fpsOf s d

-- ==== Concrete fixtures used by the witness theorems ====

/-- Fixture record, day 2025-10-16, fingerprint `2025-10-16T10:30:00|7`. -/
def wrecA : Plotted :=
  ⟨some "D", some "2025-10-16T10:30:00", some "7", 1, 2, 3, none, none, none, none, none, none, none, none⟩

/-- Fixture record with the same timestamp and sequence id as `wrecA` but a
different payload (same fingerprint). -/
def wrecB : Plotted :=
  ⟨some "D", some "2025-10-16T10:30:00", some "7", 1, 2, 99, none, none, none, none, none, none, none, none⟩

/-- Fixture record five seconds later with a fresh fingerprint. -/
def wrecC : Plotted :=
  ⟨some "D", some "2025-10-16T10:30:05", some "8", 4, 5, 6, none, none, none, none, none, none, none, none⟩

/-- Fixture record whose timestamp is not calendar-day shaped. -/
def wrecBad : Plotted :=
  ⟨some "D", some "garbage-xx-tail", some "9", 1, 2, 3, none, none, none, none, none, none, none, none⟩

/-- Fixture record with a missing timestamp. -/
def wrecNoTime : Plotted :=
  ⟨some "D", none, some "9", 1, 2, 3, none, none, none, none, none, none, none, none⟩

/-- Fixture on-disk state: one log for day 2025-10-16 holding `wrecA`, its
fingerprint duplicate `wrecB`, then `wrecC`. -/
def wdisk : List (String × List DiskLine) :=
  [("2025-10-16", [DiskLine.ok wrecA, DiskLine.ok wrecB, DiskLine.ok wrecC])]

/-- Fixture store: fresh in-memory state over `wdisk`, as after a process
restart. -/
def wstore : Store :=
  { mem := [], fps := [], days := [], disk := wdisk }

/-- Fixture upstream payload carrying `n` (empty) record dicts under
`data.tableData`. -/
def wpage (n : Nat) : JVal :=
  JVal.jobj [("data", JVal.jobj [("tableData", JVal.jarr (List.replicate n (JVal.jobj [])))])]

-- ==== Association list lemmas ====

theorem aget_aset_self {α : Type} (m : List (String × α)) (k : String) (v : α) :
    aget (aset m k v) k = some v := by
  induction m with
  | nil => simp [aset, aget]
  | cons h rest ih =>
      obtain ⟨k', v'⟩ := h
      by_cases hk : k' = k
      · simp [aset, hk, aget]
      · simp [aset, hk, aget, ih]

theorem aget_aset_ne {α : Type} (m : List (String × α)) (k k' : String) (v : α)
    (h : k' ≠ k) : aget (aset m k v) k' = aget m k' := by
  induction m with
  | nil => simp [aset, aget, h, Ne.symm h]
  | cons hd rest ih =>
      obtain ⟨k0, v0⟩ := hd
      by_cases hk : k0 = k
      · subst hk
        simp [aset, aget, h, Ne.symm h]
      · by_cases hk' : k0 = k'
        · simp [aset, hk, aget, hk', h]
        · simp [aset, hk, aget, hk', ih]

-- ==== load_day_from_disk structural lemmas ====

theorem load_noop {s : Store} {day : String} (h : (aget s.mem day).isSome) :
    load_day_from_disk s day = s := by
  simp [load_day_from_disk, h]

theorem load_disk (s : Store) (day : String) :
    (load_day_from_disk s day).disk = s.disk := by
  unfold load_day_from_disk
  split <;> rfl

theorem load_mem_isSome (s : Store) (day : String) :
    (aget (load_day_from_disk s day).mem day).isSome := by
  unfold load_day_from_disk
  split
  · assumption
  · simp [aget_aset_self]

theorem load_mem_mono {s : Store} {e : String} (day : String)
    (h : (aget s.mem e).isSome) :
    (aget (load_day_from_disk s day).mem e).isSome := by
  by_cases hd : e = day
  · subst hd; exact load_mem_isSome s e
  · unfold load_day_from_disk
    split
    · exact h
    · simpa [aget_aset_ne _ _ _ _ hd] using h

theorem load_bucket_other {s : Store} {e day : String} (h : e ≠ day) :
    bucketOf (load_day_from_disk s day) e = bucketOf s e := by
  unfold load_day_from_disk bucketOf
  split
  · rfl
  · simp [aget_aset_ne _ _ _ _ h]

theorem load_fps_other {s : Store} {e day : String} (h : e ≠ day) :
    fpsOf (load_day_from_disk s day) e = fpsOf s e := by
  unfold load_day_from_disk fpsOf
  split
  · rfl
  · simp [aget_aset_ne _ _ _ _ h]

theorem load_bucket_of_mem {s : Store} {e : String} (day : String)
    (h : (aget s.mem e).isSome) :
    bucketOf (load_day_from_disk s day) e = bucketOf s e := by
  by_cases hd : e = day
  · subst hd; rw [load_noop h]
  · exact load_bucket_other hd

theorem load_fps_of_mem {s : Store} {e : String} (day : String)
    (h : (aget s.mem e).isSome) :
    fpsOf (load_day_from_disk s day) e = fpsOf s e := by
  by_cases hd : e = day
  · subst hd; rw [load_noop h]
  · exact load_fps_other hd

-- ==== loadLoop lemmas ====

theorem loadLoop_fps (lines : List DiskLine) :
    ∀ rows fps, fps = rows.map fpOf →
      (loadLoop lines rows fps).2 = (loadLoop lines rows fps).1.map fpOf := by
  induction lines with
  | nil => intro rows fps h; simpa [loadLoop] using h
  | cons l rest ih =>
      intro rows fps h
      cases l with
      | bad => simpa [loadLoop] using ih rows fps h
      | ok r =>
          by_cases hfp : fpOf r ∈ fps
          · simpa [loadLoop, hfp] using ih rows fps h
          · simpa [loadLoop, hfp] using ih (rows ++ [r]) (fps ++ [fpOf r]) (by simp [h])

theorem loadLoop_mem (lines : List DiskLine) :
    ∀ rows fps r, r ∈ (loadLoop lines rows fps).1 →
      r ∈ rows ∨ DiskLine.ok r ∈ lines := by
  induction lines with
  | nil => intro rows fps r h; exact Or.inl (by simpa [loadLoop] using h)
  | cons l rest ih =>
      intro rows fps r h
      cases l with
      | bad =>
          rcases ih rows fps r (by simpa [loadLoop] using h) with h1 | h1
          · exact Or.inl h1
          · exact Or.inr (List.mem_cons_of_mem _ h1)
      | ok q =>
          by_cases hfp : fpOf q ∈ fps
          · rcases ih rows fps r (by simpa [loadLoop, hfp] using h) with h1 | h1
            · exact Or.inl h1
            · exact Or.inr (List.mem_cons_of_mem _ h1)
          · rcases ih (rows ++ [q]) (fps ++ [fpOf q]) r (by simpa [loadLoop, hfp] using h)
              with h1 | h1
            · rcases List.mem_append.mp h1 with h2 | h2
              · exact Or.inl h2
              · simp only [List.mem_singleton] at h2
                subst h2
                exact Or.inr (List.mem_cons_self _ _)
            · exact Or.inr (List.mem_cons_of_mem _ h1)

-- ==== Coherence invariants of the day store ====

theorem good_emptyStore : good emptyStore := by
  refine ⟨?_, ?_, ?_⟩ <;> intro d <;> simp [bucketOf, fpsOf, emptyStore, aget]

theorem load_bucket_self_not_mem {s : Store} {day : String}
    (h : ¬ (aget s.mem day).isSome) :
    bucketOf (load_day_from_disk s day) day
      = (loadLoop ((aget s.disk day).getD []) [] []).1 := by
  simp [load_day_from_disk, h, bucketOf, aget_aset_self]

theorem load_fps_self_not_mem {s : Store} {day : String}
    (h : ¬ (aget s.mem day).isSome) :
    fpsOf (load_day_from_disk s day) day
      = (loadLoop ((aget s.disk day).getD []) [] []).2 := by
  simp [load_day_from_disk, h, fpsOf, aget_aset_self]

theorem good_load {s : Store} (h : good s) (day : String) :
    good (load_day_from_disk s day) := by
  obtain ⟨hm, hd, hf⟩ := h
  by_cases hmem : (aget s.mem day).isSome
  · rw [load_noop hmem]; exact ⟨hm, hd, hf⟩
  · refine ⟨?_, ?_, ?_⟩
    · intro e r hr
      by_cases he : e = day
      · subst he
        rw [load_bucket_self_not_mem hmem] at hr
        rcases loadLoop_mem _ _ _ _ hr with h1 | h1
        · simp at h1
        · exact hd e r (by simpa using h1)
      · exact hm e r (by rwa [load_bucket_other he] at hr)
    · intro e r hr
      rw [load_disk] at hr
      exact hd e r hr
    · intro e
      by_cases he : e = day
      · subst he
        rw [load_bucket_self_not_mem hmem, load_fps_self_not_mem hmem]
        exact loadLoop_fps _ [] [] (by simp)
      · rw [load_bucket_other he, load_fps_other he]
        exact hf e

theorem addRecord_bucket_self (s1 : Store) (d : String) (r : Plotted) :
    bucketOf (addRecord s1 d r) d = bucketOf s1 d ++ [r] := by
  simp [addRecord, bucketOf, aget_aset_self]

theorem addRecord_bucket_other (s1 : Store) {d e : String} (r : Plotted)
    (h : e ≠ d) : bucketOf (addRecord s1 d r) e = bucketOf s1 e := by
  simp [addRecord, bucketOf, aget_aset_ne _ _ _ _ h]

theorem addRecord_fps_self (s1 : Store) (d : String) (r : Plotted) :
    fpsOf (addRecord s1 d r) d = fpsOf s1 d ++ [fpOf r] := by
  simp [addRecord, fpsOf, aget_aset_self]

theorem addRecord_fps_other (s1 : Store) {d e : String} (r : Plotted)
    (h : e ≠ d) : fpsOf (addRecord s1 d r) e = fpsOf s1 e := by
  simp [addRecord, fpsOf, aget_aset_ne _ _ _ _ h]

theorem good_addRecord {s1 : Store} (h : good s1) {r : Plotted} {d : String}
    (hday : day_from_time r.time = some d) : good (addRecord s1 d r) := by
  obtain ⟨hm, hd, hf⟩ := h
  refine ⟨?_, ?_, ?_⟩
  · intro e q hq
    by_cases he : e = d
    · subst he
      rw [addRecord_bucket_self] at hq
      rcases List.mem_append.mp hq with h1 | h1
      · exact hm e q h1
      · simp only [List.mem_singleton] at h1
        subst h1
        exact hday
    · exact hm e q (by rwa [addRecord_bucket_other _ _ he] at hq)
  · intro e q hq
    exact hd e q hq
  · intro e
    by_cases he : e = d
    · subst he
      rw [addRecord_fps_self, addRecord_bucket_self, List.map_append, hf e]
      simp
    · rw [addRecord_fps_other _ _ he, addRecord_bucket_other _ _ he]
      exact hf e

theorem good_ingestLoop :
    ∀ (rs : List Plotted) (s : Store) (added : List (String × Nat)),
      good s → good (ingestLoop s added rs).1 := by
  intro rs
  induction rs with
  | nil => intro s added h; simpa [ingestLoop] using h
  | cons r rest ih =>
      intro s added h
      cases hday : day_from_time r.time with
      | none => simpa [ingestLoop, hday] using ih s added h
      | some d =>
          have h1 := good_load h d
          by_cases hfp : fpOf r ∈ fpsOf (load_day_from_disk s d) d
          · simpa [ingestLoop, hday, hfp] using ih _ added h1
          · have h2 := good_addRecord h1 hday
            simpa [ingestLoop, hday, hfp, addRecord] using
              ih (addRecord (load_day_from_disk s d) d r) (bump added d) h2

theorem flushLoop_mem :
    ∀ (added : List (String × Nat)) (s : Store), (flushLoop s added).mem = s.mem := by
  intro added
  induction added with
  | nil => intro s; rfl
  | cons p rest ih =>
      intro s
      obtain ⟨d, n⟩ := p
      by_cases h : n = 0 <;> simp [flushLoop, h, ih]

theorem flushLoop_fps :
    ∀ (added : List (String × Nat)) (s : Store), (flushLoop s added).fps = s.fps := by
  intro added
  induction added with
  | nil => intro s; rfl
  | cons p rest ih =>
      intro s
      obtain ⟨d, n⟩ := p
      by_cases h : n = 0 <;> simp [flushLoop, h, ih]

theorem good_diskAppend {s : Store} (h : good s) (d : String) (tail : List Plotted)
    (htail : ∀ q ∈ tail, day_from_time q.time = some d) :
    good { s with disk := aset s.disk d (((aget s.disk d).getD []) ++ tail.map DiskLine.ok) } := by
  obtain ⟨hm, hd, hf⟩ := h
  refine ⟨hm, ?_, hf⟩
  intro e q hq
  by_cases he : e = d
  · subst he
    simp only [aget_aset_self, Option.getD_some] at hq
    rcases List.mem_append.mp hq with h1 | h1
    · exact hd e q h1
    · rcases List.mem_map.mp h1 with ⟨q2, hq2, heq⟩
      injection heq with heq2
      subst heq2
      exact htail q2 hq2
  · rw [aget_aset_ne _ _ _ _ he] at hq
    exact hd e q hq

theorem good_flushLoop :
    ∀ (added : List (String × Nat)) (s : Store), good s → good (flushLoop s added) := by
  intro added
  induction added with
  | nil => intro s h; exact h
  | cons p rest ih =>
      intro s h
      obtain ⟨d, n⟩ := p
      by_cases hn : n = 0
      · simpa [flushLoop, hn] using ih s h
      · have hgood2 := good_diskAppend h d ((bucketOf s d).drop ((bucketOf s d).length - n))
          (fun q hq => h.1 d q (List.mem_of_mem_drop hq))
        simpa [flushLoop, hn] using ih _ hgood2

theorem good_days_any {s : Store} (h : good s) (x : List String) :
    good { s with days := x } := by
  obtain ⟨hm, hd, hf⟩ := h
  exact ⟨hm, hd, hf⟩

theorem add_fst_mem (s : Store) (rows : List Plotted) :
    (add_to_day_cache s rows).1.mem = (ingestLoop s [] rows).1.mem := by
  unfold add_to_day_cache
  by_cases h : (ingestLoop s [] rows).2.isEmpty <;> simp [h, flushLoop_mem]

theorem add_fst_fps (s : Store) (rows : List Plotted) :
    (add_to_day_cache s rows).1.fps = (ingestLoop s [] rows).1.fps := by
  unfold add_to_day_cache
  by_cases h : (ingestLoop s [] rows).2.isEmpty <;> simp [h, flushLoop_fps]

theorem good_add {s : Store} (h : good s) (rows : List Plotted) :
    good (add_to_day_cache s rows).1 := by
  unfold add_to_day_cache
  have h1 := good_ingestLoop rows s [] h
  have h2 := good_flushLoop (ingestLoop s [] rows).2 (ingestLoop s [] rows).1 h1
  by_cases he : (ingestLoop s [] rows).2.isEmpty
  · simpa [he] using h2
  · simpa [he] using good_days_any h2 _

-- ==== Fingerprint-visibility machinery ====

theorem seenIn_load {s : Store} {d fp : String} (h : seenIn s d fp) (day : String) :
    seenIn (load_day_from_disk s day) d fp := by
  obtain ⟨h1, h2⟩ := h
  exact ⟨load_mem_mono day h1, by rw [load_fps_of_mem day h1]; exact h2⟩

theorem addRecord_mem_isSome_mono {s1 : Store} {d0 : String}
    (h : (aget s1.mem d0).isSome) (d : String) (r : Plotted) :
    (aget (addRecord s1 d r).mem d0).isSome := by
  by_cases hd : d0 = d
  · subst hd; simp [addRecord, aget_aset_self]
  · simpa [addRecord, aget_aset_ne _ _ _ _ hd] using h

theorem seenIn_addRecord {s1 : Store} {d0 fp : String} (h : seenIn s1 d0 fp)
    (d : String) (r : Plotted) : seenIn (addRecord s1 d r) d0 fp := by
  obtain ⟨h1, h2⟩ := h
  refine ⟨addRecord_mem_isSome_mono h1 d r, ?_⟩
  by_cases hd : d0 = d
  · subst hd
    rw [addRecord_fps_self]
    exact List.mem_append_left _ h2
  · rwa [addRecord_fps_other _ _ hd]

theorem seenIn_ingestLoop :
    ∀ (rs : List Plotted) (s : Store) (added : List (String × Nat)) (d0 fp : String),
      seenIn s d0 fp → seenIn (ingestLoop s added rs).1 d0 fp := by
  intro rs
  induction rs with
  | nil => intro s added d0 fp h; simpa [ingestLoop] using h
  | cons r rest ih =>
      intro s added d0 fp h
      cases hday : day_from_time r.time with
      | none => simpa [ingestLoop, hday] using ih s added d0 fp h
      | some d =>
          have h1 := seenIn_load h d
          by_cases hfp : fpOf r ∈ fpsOf (load_day_from_disk s d) d
          · simpa [ingestLoop, hday, hfp] using ih _ added d0 fp h1
          · simpa [ingestLoop, hday, hfp, addRecord] using
              ih _ (bump added d) d0 fp (seenIn_addRecord h1 d r)

theorem ingestLoop_post :
    ∀ (rs : List Plotted) (s : Store) (added : List (String × Nat))
      (r : Plotted) (d : String), r ∈ rs → day_from_time r.time = some d →
      seenIn (ingestLoop s added rs).1 d (fpOf r) := by
  intro rs
  induction rs with
  | nil => intro s added r d h; simp at h
  | cons q rest ih =>
      intro s added r d hmem hday
      rcases List.mem_cons.mp hmem with heq | htail
      · subst heq
        by_cases hfp : fpOf r ∈ fpsOf (load_day_from_disk s d) d
        · have hseen : seenIn (load_day_from_disk s d) d (fpOf r) :=
            ⟨load_mem_isSome s d, hfp⟩
          simpa [ingestLoop, hday, hfp] using
            seenIn_ingestLoop rest _ added d (fpOf r) hseen
        · have hseen : seenIn (addRecord (load_day_from_disk s d) d r) d (fpOf r) := by
            refine ⟨addRecord_mem_isSome_mono (load_mem_isSome s d) d r, ?_⟩
            rw [addRecord_fps_self]
            exact List.mem_append_right _ (List.mem_singleton_self _)
          simpa [ingestLoop, hday, hfp, addRecord] using
            seenIn_ingestLoop rest _ (bump added d) d (fpOf r) hseen
      · cases hdayq : day_from_time q.time with
        | none => simpa [ingestLoop, hdayq] using ih _ added r d htail hday
        | some d2 =>
            by_cases hfp : fpOf q ∈ fpsOf (load_day_from_disk s d2) d2
            · simpa [ingestLoop, hdayq, hfp] using ih _ added r d htail hday
            · simpa [ingestLoop, hdayq, hfp, addRecord] using
                ih _ (bump added d2) r d htail hday

/-- Records already seen for their (loaded) day are skipped wholesale. -/
theorem ingest_skip_all :
    ∀ (rs : List Plotted) (s : Store) (added : List (String × Nat)),
      (∀ r ∈ rs, ∀ d, day_from_time r.time = some d → seenIn s d (fpOf r)) →
      ingestLoop s added rs = (s, added) := by
  intro rs
  induction rs with
  | nil => intro s added _; rfl
  | cons r rest ih =>
      intro s added h
      cases hday : day_from_time r.time with
      | none =>
          simp only [ingestLoop, hday]
          exact ih s added (fun q hq => h q (List.mem_cons_of_mem _ hq))
      | some d =>
          have hs := h r (List.mem_cons_self _ _) d hday
          have hno : load_day_from_disk s d = s := load_noop hs.1
          simp only [ingestLoop, hday, hno, hs.2, if_pos]
          exact ih s added (fun q hq => h q (List.mem_cons_of_mem _ hq))

theorem seenIn_add_result {s : Store} {rows : List Plotted} {r : Plotted} {d : String}
    (hmem : r ∈ rows) (hday : day_from_time r.time = some d) :
    seenIn (add_to_day_cache s rows).1 d (fpOf r) := by
  have h := ingestLoop_post rows s [] r d hmem hday
  obtain ⟨h1, h2⟩ := h
  constructor
  · rw [add_fst_mem]; exact h1
  · have : fpsOf (add_to_day_cache s rows).1 d = fpsOf (ingestLoop s [] rows).1 d := by
      unfold fpsOf
      rw [add_fst_fps]
    rw [this]; exact h2

-- ==== ingestLoop unfolding and add_to_day_cache projections ====

theorem ingestLoop_cons_noday {s : Store} {r : Plotted}
    (hday : day_from_time r.time = none) (added : List (String × Nat)) (rest : List Plotted) :
    ingestLoop s added (r :: rest) = ingestLoop s added rest := by
  simp [ingestLoop, hday]

theorem ingestLoop_cons_seen {s : Store} {r : Plotted} {d : String}
    (hday : day_from_time r.time = some d)
    (hfp : fpOf r ∈ fpsOf (load_day_from_disk s d) d)
    (added : List (String × Nat)) (rest : List Plotted) :
    ingestLoop s added (r :: rest) = ingestLoop (load_day_from_disk s d) added rest := by
  simp [ingestLoop, hday, hfp]

theorem ingestLoop_cons_fresh {s : Store} {r : Plotted} {d : String}
    (hday : day_from_time r.time = some d)
    (hfp : fpOf r ∉ fpsOf (load_day_from_disk s d) d)
    (added : List (String × Nat)) (rest : List Plotted) :
    ingestLoop s added (r :: rest)
      = ingestLoop (addRecord (load_day_from_disk s d) d r) (bump added d) rest := by
  simp [ingestLoop, hday, hfp, addRecord]

theorem add_snd (s : Store) (rows : List Plotted) :
    (add_to_day_cache s rows).2 = (ingestLoop s [] rows).2 := rfl

theorem add_bucket (s : Store) (rows : List Plotted) (e : String) :
    bucketOf (add_to_day_cache s rows).1 e = bucketOf (ingestLoop s [] rows).1 e := by
  unfold bucketOf
  rw [add_fst_mem]

/-- If every record of the page is already seen for its day, `add_to_day_cache`
is a complete no-op. -/
theorem add_skip_all {s : Store} {rows : List Plotted}
    (h : ∀ r ∈ rows, ∀ d, day_from_time r.time = some d → seenIn s d (fpOf r)) :
    add_to_day_cache s rows = (s, []) := by
  unfold add_to_day_cache
  rw [ingest_skip_all rows s [] h]
  simp [flushLoop]

-- ==== Claim C1 ====

/-- C1: ingestion is idempotent under fingerprint deduplication.  For every
per-key state and page, running `add_to_day_cache` a second time on the same
records adds nothing and leaves the whole store (every DayBucket included)
unchanged; and two records of one page sharing timestamp and sequence id
(hence fingerprint) yield exactly one stored record for their day: the day
gains exactly the first of the two, and `added_per_day` reports one addition. -/
theorem c1_ingest_idempotent_and_page_dedup (st : Store) (r r2 : Plotted) (d : String)
    (htime : r2.time = r.time) (henv : r2.envio_n = r.envio_n)
    (hday : day_from_time r.time = some d)
    (hfresh : fpOf r ∉ fpsOf (load_day_from_disk st d) d) :
    (∀ (records : List Plotted),
      add_to_day_cache (add_to_day_cache st records).1 records
        = ((add_to_day_cache st records).1, []))
    ∧ bucketOf (add_to_day_cache st [r, r2]).1 d
        = bucketOf (load_day_from_disk st d) d ++ [r]
    ∧ (add_to_day_cache st [r, r2]).2 = [(d, 1)] := by
  have hfp2 : fpOf r2 = fpOf r := by
    unfold fpOf
    rw [htime, henv]
  have hday2 : day_from_time r2.time = some d := by rw [htime]; exact hday
  have hmemsome : (aget (addRecord (load_day_from_disk st d) d r).mem d).isSome :=
    addRecord_mem_isSome_mono (load_mem_isSome st d) d r
  have hnoop : load_day_from_disk (addRecord (load_day_from_disk st d) d r) d
      = addRecord (load_day_from_disk st d) d r := load_noop hmemsome
  have hin2 : fpOf r2 ∈
      fpsOf (load_day_from_disk (addRecord (load_day_from_disk st d) d r) d) d := by
    rw [hnoop, hfp2, addRecord_fps_self]
    exact List.mem_append_right _ (List.mem_singleton_self _)
  have hing : ingestLoop st [] [r, r2]
      = (addRecord (load_day_from_disk st d) d r, [(d, 1)]) := by
    rw [show ([r, r2] : List Plotted) = r :: [r2] from rfl,
        ingestLoop_cons_fresh hday hfresh,
        ingestLoop_cons_seen hday2 hin2, hnoop]
    rfl
  refine ⟨?_, ?_, ?_⟩
  · intro records
    exact add_skip_all (fun q hq dq hdq => seenIn_add_result hq hdq)
  · rw [add_bucket, hing, addRecord_bucket_self]
  · rw [add_snd, hing]

/-- Witness for C1 at a concrete state and pair of duplicate records. -/
theorem c1_witness :
    wrecB.time = wrecA.time
    ∧ day_from_time wrecA.time = some "2025-10-16"
    ∧ bucketOf (add_to_day_cache emptyStore [wrecA, wrecB]).1 "2025-10-16"
        = bucketOf (load_day_from_disk emptyStore "2025-10-16") "2025-10-16" ++ [wrecA]
    ∧ (add_to_day_cache emptyStore [wrecA, wrecB]).2 = [("2025-10-16", 1)] := by
  refine ⟨by decide, by decide, ?_, ?_⟩
  · exact (c1_ingest_idempotent_and_page_dedup emptyStore wrecA wrecB "2025-10-16"
      (by decide) (by decide) (by decide) (by decide)).2.1
  · exact (c1_ingest_idempotent_and_page_dedup emptyStore wrecA wrecB "2025-10-16"
      (by decide) (by decide) (by decide) (by decide)).2.2

-- ==== Claim C3 ====

/-- C3: deduplication survives a restart.  Reading day `D` on a fresh
in-memory state whose log holds `[r1, r2, r3]` with `r2` a fingerprint
duplicate of `r1` yields exactly `[r1, r3]`; the rebuilt fingerprint set is
exactly those two fingerprints, and any record already covered by it is not
re-admitted by a subsequent ingest. -/
theorem c3_restart_recovery (disk0 : List (String × List DiskLine)) (D : String)
    (r1 r2 r3 : Plotted)
    (h21 : fpOf r2 = fpOf r1) (h31 : fpOf r3 ≠ fpOf r1)
    (hdisk : aget disk0 D = some [DiskLine.ok r1, DiskLine.ok r2, DiskLine.ok r3]) :
    (getDay { mem := [], fps := [], days := [], disk := disk0 } D).2 = [r1, r3]
    ∧ fpsOf (getDay { mem := [], fps := [], days := [], disk := disk0 } D).1 D
        = [fpOf r1, fpOf r3]
    ∧ ∀ q : Plotted, day_from_time q.time = some D →
        fpOf q ∈ fpsOf (getDay { mem := [], fps := [], days := [], disk := disk0 } D).1 D →
        add_to_day_cache (getDay { mem := [], fps := [], days := [], disk := disk0 } D).1 [q]
          = ((getDay { mem := [], fps := [], days := [], disk := disk0 } D).1, []) := by
  have hmem0 : ¬ (aget ({ mem := [], fps := [], days := [], disk := disk0 } : Store).mem D).isSome := by
    simp [aget]
  have hLL : loadLoop [DiskLine.ok r1, DiskLine.ok r2, DiskLine.ok r3] [] []
      = ([r1, r3], [fpOf r1, fpOf r3]) := by
    simp [loadLoop, h21, h31]
  have hbucket : (getDay { mem := [], fps := [], days := [], disk := disk0 } D).2 = [r1, r3] := by
    show bucketOf (load_day_from_disk { mem := [], fps := [], days := [], disk := disk0 } D) D
      = [r1, r3]
    rw [load_bucket_self_not_mem hmem0]
    show (loadLoop ((aget disk0 D).getD []) [] []).1 = [r1, r3]
    rw [hdisk]
    simp [hLL]
  have hfps : fpsOf (getDay { mem := [], fps := [], days := [], disk := disk0 } D).1 D
      = [fpOf r1, fpOf r3] := by
    show fpsOf (load_day_from_disk { mem := [], fps := [], days := [], disk := disk0 } D) D
      = [fpOf r1, fpOf r3]
    rw [load_fps_self_not_mem hmem0]
    show (loadLoop ((aget disk0 D).getD []) [] []).2 = [fpOf r1, fpOf r3]
    rw [hdisk]
    simp [hLL]
  refine ⟨hbucket, hfps, ?_⟩
  intro q hq hqfp
  apply add_skip_all
  intro r hr dq hdq
  simp only [List.mem_singleton] at hr
  subst hr
  rw [hq] at hdq
  injection hdq with hdq2
  subst hdq2
  exact ⟨load_mem_isSome _ _, hqfp⟩

/-- Witness for C3 at a concrete log with a duplicate middle record. -/
theorem c3_witness :
    fpOf wrecB = fpOf wrecA
    ∧ (getDay { mem := [], fps := [], days := [], disk := wdisk } "2025-10-16").2
        = [wrecA, wrecC] := by
  refine ⟨by decide, ?_⟩
  exact (c3_restart_recovery wdisk "2025-10-16" wrecA wrecB wrecC
    (by decide) (by decide) (by decide)).1

-- ==== Claim C5 ====

/-- C5: day partitioning is correct.  Starting from a coherent state, after an
ingest the state stays coherent; every ingested record with a day is
represented (by fingerprint identity, the store's notion of record identity)
in the bucket read back for the first 10 characters of its timestamp; and a
day read only ever returns records whose timestamp maps to that very day, so
a record appears in no other day's bucket. -/
theorem c5_day_partitioning (st : Store) (hgood : good st) (records : List Plotted) :
    good (add_to_day_cache st records).1
    ∧ (∀ r ∈ records, ∀ d, day_from_time r.time = some d →
        ∃ r2 ∈ (getDay (add_to_day_cache st records).1 d).2, fpOf r2 = fpOf r)
    ∧ (∀ (r : Plotted) (e : String),
        r ∈ (getDay (add_to_day_cache st records).1 e).2 →
        day_from_time r.time = some e) := by
  have hg2 := good_add hgood records
  refine ⟨hg2, ?_, ?_⟩
  · intro r hr d hday
    obtain ⟨hsome, hin⟩ := seenIn_add_result hr hday
    have hread : (getDay (add_to_day_cache st records).1 d).2
        = bucketOf (add_to_day_cache st records).1 d := by
      simp only [getDay]
      rw [load_noop hsome]
    rw [hread]
    have hmatch := hg2.2.2 d
    rw [hmatch] at hin
    rcases List.mem_map.mp hin with ⟨r2, hr2, hfp⟩
    exact ⟨r2, hr2, hfp⟩
  · intro r e hmem
    have hg3 := good_load hg2 e
    simp only [getDay] at hmem
    exact hg3.1 e r hmem

/-- Witness for C5: the scenario record lands in, and is read back from,
exactly its day bucket. -/
theorem c5_witness :
    day_from_time wrecA.time = some "2025-10-16"
    ∧ ∃ r2 ∈ (getDay (add_to_day_cache emptyStore [wrecA]).1 "2025-10-16").2,
        fpOf r2 = fpOf wrecA := by
  refine ⟨by decide, ?_⟩
  exact (c5_day_partitioning emptyStore good_emptyStore [wrecA]).2.1 wrecA
    (List.mem_singleton_self _) "2025-10-16" (by decide)

-- ==== Claim C6 ====

/-- C6 counterexample: the claim "a record whose timestamp is not a valid
calendar-day-prefixed timestamp is excluded from the Day Store" is false on
the code.  `day_from_time` performs no calendar validation: the record with
timestamp `garbage-xx-tail` is stored in (and read back from) the bucket
named by its first 10 characters. -/
theorem c6_counterexample :
    specCalendarDayPrefixed "garbage-xx-tail" = false
    ∧ wrecBad.time = some "garbage-xx-tail"
    ∧ wrecBad ∈ bucketOf (add_to_day_cache emptyStore [wrecBad]).1 "garbage-xx" := by
  refine ⟨by decide, by decide, ?_⟩
  decide

/-- C6 (amended): the records `day_from_time` actually rejects are exactly
those with a missing or empty timestamp; such a record has no day and is
excluded by `add_to_day_cache`: no day read ever returns it. -/
theorem c6_empty_timestamp_excluded (st : Store) (hgood : good st)
    (records : List Plotted) (r : Plotted)
    (ht : r.time = none ∨ r.time = some "") (e : String) :
    r ∉ (getDay (add_to_day_cache st records).1 e).2 := by
  intro hmem
  have hg3 := good_load (good_add hgood records) e
  simp only [getDay] at hmem
  have hday := hg3.1 e r hmem
  rcases ht with h | h <;> rw [h] at hday <;> simp [day_from_time] at hday

/-- Witness for the amended C6: a record without a timestamp never shows up
in a day read after being ingested. -/
theorem c6_witness :
    wrecNoTime.time = none
    ∧ wrecNoTime ∉ (getDay (add_to_day_cache emptyStore [wrecNoTime]).1 "2025-10-16").2 := by
  refine ⟨rfl, ?_⟩
  exact c6_empty_timestamp_excluded emptyStore good_emptyStore [wrecNoTime] wrecNoTime
    (Or.inl rfl) "2025-10-16"

-- ==== Claim C2 ====

/-- C2: on every successful page fetch while paginating, the cursor's offset
advances by exactly the number of raw records returned (whatever the number
of plottable ones), `finished` becomes true exactly when that count is
strictly below the page size, and the iteration reports a page advance. -/
theorem c2_offset_advance_and_finish (p d t : String) (st : Store) (cur : Cur)
    (limit : Nat) (status : Nat) (v : JVal) (raws : List RawRow)
    (hpag : cur.finished = false) (hstatus : status < 400)
    (hex : extract_rows v = some raws) :
    ((loop_body p d t st cur limit (HResp.ok status (Body.json v))).2.1.offset
        = cur.offset + raws.length)
    ∧ ((loop_body p d t st cur limit (HResp.ok status (Body.json v))).2.1.finished = true
        ↔ raws.length < limit)
    ∧ (loop_body p d t st cur limit (HResp.ok status (Body.json v))).2.2
        = Outcome.pagAdvanced := by
  have h1 : ¬(status = 400 ∧ is_no_records_payload v) := by
    rintro ⟨h, _⟩
    omega
  have h2 : ¬(400 ≤ status) := by omega
  simp [loop_body, hpag, h1, h2, hex]

theorem filterMap_dicts_replicate (n : Nat) :
    (List.replicate n (JVal.jobj [])).filterMap
      (fun x => match x with | JVal.jobj fs => some fs | _ => none)
      = List.replicate n ([] : RawRow) := by
  induction n with
  | zero => rfl
  | succ k ih => simp [List.replicate_succ, List.filterMap_cons, ih]

theorem extract_wpage (n : Nat) :
    extract_rows (wpage n) = some (List.replicate n ([] : RawRow)) := by
  simp [wpage, extract_rows, aget, filterMap_dicts_replicate]

/-- Witness for C2, scenario A: a full 500-record page leaves
`finished=false, offset=500`; the following 120-record page yields
`finished=true, offset=620`. -/
theorem c2_witness :
    ((loop_body "18" "HIRIPRO-01" "datos" emptyStore initialCur 500
        (HResp.ok 200 (Body.json (wpage 500)))).2.1.offset = 500)
    ∧ ((loop_body "18" "HIRIPRO-01" "datos" emptyStore initialCur 500
        (HResp.ok 200 (Body.json (wpage 500)))).2.1.finished = false)
    ∧ ((loop_body "18" "HIRIPRO-01" "datos"
          (loop_body "18" "HIRIPRO-01" "datos" emptyStore initialCur 500
            (HResp.ok 200 (Body.json (wpage 500)))).1
          (loop_body "18" "HIRIPRO-01" "datos" emptyStore initialCur 500
            (HResp.ok 200 (Body.json (wpage 500)))).2.1
          500 (HResp.ok 200 (Body.json (wpage 120)))).2.1.offset = 620)
    ∧ ((loop_body "18" "HIRIPRO-01" "datos"
          (loop_body "18" "HIRIPRO-01" "datos" emptyStore initialCur 500
            (HResp.ok 200 (Body.json (wpage 500)))).1
          (loop_body "18" "HIRIPRO-01" "datos" emptyStore initialCur 500
            (HResp.ok 200 (Body.json (wpage 500)))).2.1
          500 (HResp.ok 200 (Body.json (wpage 120)))).2.1.finished = true) := by
  have hex1 := extract_wpage 500
  have hex2 := extract_wpage 120
  have h1 := c2_offset_advance_and_finish "18" "HIRIPRO-01" "datos" emptyStore initialCur
    500 200 (wpage 500) (List.replicate 500 ([] : RawRow)) rfl (by omega) hex1
  have hoff1 : (loop_body "18" "HIRIPRO-01" "datos" emptyStore initialCur 500
      (HResp.ok 200 (Body.json (wpage 500)))).2.1.offset = 500 := by
    rw [h1.1, List.length_replicate]
    rfl
  have hfin1 : (loop_body "18" "HIRIPRO-01" "datos" emptyStore initialCur 500
      (HResp.ok 200 (Body.json (wpage 500)))).2.1.finished = false := by
    have h := h1.2.1
    simp only [List.length_replicate] at h
    refine Bool.eq_false_iff.mpr (fun hb => ?_)
    have := h.mp hb
    omega
  have h2 := c2_offset_advance_and_finish "18" "HIRIPRO-01" "datos"
    (loop_body "18" "HIRIPRO-01" "datos" emptyStore initialCur 500
      (HResp.ok 200 (Body.json (wpage 500)))).1
    (loop_body "18" "HIRIPRO-01" "datos" emptyStore initialCur 500
      (HResp.ok 200 (Body.json (wpage 500)))).2.1
    500 200 (wpage 120) (List.replicate 120 ([] : RawRow)) hfin1 (by omega) hex2
  have hoff2 := h2.1
  rw [hoff1, List.length_replicate] at hoff2
  have hfin2 := h2.2.1.mpr (by simp)
  exact ⟨hoff1, hfin1, hoff2, hfin2⟩

-- ==== Claim C4 ====

/-- C4 evidence: a successful (HTTP 200) response whose valid-JSON body has no
extractable records, e.g. `(\x7b"status":"ok"\x7d)`, is NOT treated as a retryable
error by the paginating collector: the page counts as an empty page, so the
offset stays put but `finished` is set to `true` (false end-of-stream).  Only
a body that is not JSON at all takes the retryable-error path (the re-parse
raises a `JSONDecodeError`, a `RequestException`), leaving offset and
`finished` untouched. -/
theorem c4_malformed_nonempty_marks_finished :
    ((loop_body "18" "HIRIPRO-01" "datos" emptyStore initialCur 500
        (HResp.ok 200 (Body.json (JVal.jobj [("status", JVal.jstr "ok")])))).2.1.finished
      = true)
    ∧ ((loop_body "18" "HIRIPRO-01" "datos" emptyStore initialCur 500
        (HResp.ok 200 (Body.json (JVal.jobj [("status", JVal.jstr "ok")])))).2.1.offset
      = initialCur.offset)
    ∧ ((loop_body "18" "HIRIPRO-01" "datos" emptyStore initialCur 500
        (HResp.ok 200 (Body.json (JVal.jobj [("status", JVal.jstr "ok")])))).2.2
      = Outcome.pagAdvanced)
    ∧ ((loop_body "18" "HIRIPRO-01" "datos" emptyStore initialCur 500
        (HResp.ok 200 Body.notJson)).2.1.finished = false)
    ∧ ((loop_body "18" "HIRIPRO-01" "datos" emptyStore initialCur 500
        (HResp.ok 200 Body.notJson)).2.1.offset = initialCur.offset)
    ∧ ((loop_body "18" "HIRIPRO-01" "datos" emptyStore initialCur 500
        (HResp.ok 200 Body.notJson)).2.2 = Outcome.errorRetry) := by
  refine ⟨rfl, rfl, rfl, rfl, rfl, rfl⟩

-- ==== Claim C7 ====

/-- C7: the cursor's offset never decreases over any collector iteration, and
an error iteration is atomic: when the loop lands in the retry path, the only
cursor change is recording `last_error` — offset, page count, `finished` and
`last_url` are exactly as before. -/
theorem c7_offset_monotone_error_atomic (p d t : String) (st : Store) (cur : Cur)
    (limit : Nat) (resp : HResp) :
    cur.offset ≤ (loop_body p d t st cur limit resp).2.1.offset
    ∧ ((loop_body p d t st cur limit resp).2.2 = Outcome.errorRetry →
        ∃ m, (loop_body p d t st cur limit resp).2.1 = { cur with lastError := some m }) := by
  cases hf : cur.finished with
  | false =>
      cases resp with
      | netError m =>
          refine ⟨?_, fun _ => ⟨m, ?_⟩⟩ <;> simp [loop_body, hf]
      | ok status body =>
          by_cases h400 : status = 400 ∧
              is_no_records_payload (match body with | Body.json v => v | Body.notJson => JVal.jobj [])
          · refine ⟨?_, fun ho => ?_⟩ <;> simp [loop_body, hf, h400] at *
          · by_cases hge : 400 ≤ status
            · refine ⟨?_, fun _ => ⟨"HTTPError: " ++ toString status, ?_⟩⟩ <;>
                simp [loop_body, hf, h400, hge]
            · cases body with
              | notJson =>
                  refine ⟨?_, fun _ => ⟨"JSONDecodeError: Expecting value", ?_⟩⟩ <;>
                    simp [loop_body, hf, h400, hge]
              | json v =>
                  cases hex : extract_rows v with
                  | none => refine ⟨?_, fun ho => ?_⟩ <;> simp [loop_body, hf, h400, hge, hex] at *
                  | some raws =>
                      refine ⟨?_, fun ho => ?_⟩ <;> simp [loop_body, hf, h400, hge, hex] at *
  | true =>
      cases resp with
      | netError m =>
          refine ⟨?_, fun _ => ⟨m, ?_⟩⟩ <;> simp [loop_body, hf]
      | ok status body =>
          cases body with
          | notJson =>
              by_cases hge : 400 ≤ status
              · refine ⟨?_, fun _ => ⟨"HTTPError: " ++ toString status, ?_⟩⟩ <;>
                  simp [loop_body, hf, hge]
              · refine ⟨?_, fun ho => ?_⟩ <;> simp [loop_body, hf, hge] at *
          | json v =>
              by_cases h400 : status = 400 ∧ is_no_records_payload v
              · refine ⟨?_, fun ho => ?_⟩ <;> simp [loop_body, hf, h400] at *
              · by_cases hge : 400 ≤ status
                · refine ⟨?_, fun _ => ⟨"HTTPError: " ++ toString status, ?_⟩⟩ <;>
                    simp [loop_body, hf, h400, hge]
                · cases hex : extract_rows v with
                  | none => refine ⟨?_, fun ho => ?_⟩ <;> simp [loop_body, hf, h400, hge, hex] at *
                  | some raws =>
                      refine ⟨?_, fun ho => ?_⟩ <;> simp [loop_body, hf, h400, hge, hex] at *

/-- Witness for C7 at a concrete network failure: only `last_error` changes. -/
theorem c7_witness :
    ∃ m, (loop_body "18" "HIRIPRO-01" "datos" emptyStore initialCur 500
        (HResp.netError "ConnectionError: boom")).2.1
      = { initialCur with lastError := some m } := by
  exact (c7_offset_monotone_error_atomic "18" "HIRIPRO-01" "datos" emptyStore initialCur
    500 (HResp.netError "ConnectionError: boom")).2 rfl

-- ==== Claim C8 ====

theorem keepSince_iff (sv : String) (r : Plotted) :
    keepSince sv r = true ↔
      ∃ ts, r.time = some ts ∧ ts ≠ "" ∧
        ∃ te, isoEpoch (pyReplace ts "Z" "") = some te ∧ to_epoch sv < te := by
  unfold keepSince
  cases hts : r.time with
  | none => simp
  | some ts =>
      by_cases hempty : ts = ""
      · simp [hempty]
      · cases hiso : isoEpoch (pyReplace ts "Z" "") with
        | none => simp [hempty, hiso]
        | some te => simp [hempty, hiso]

theorem to_epoch_of_iso {sv : String} {th : Int} (hsv1 : sv ≠ "")
    (hsv2 : pyIsdigit sv = false) (hsv3 : isoEpoch (pyReplace sv "Z" "") = some th) :
    to_epoch sv = th := by
  unfold to_epoch
  simp [hsv1, hsv2, hsv3]

/-- C8: the `since` filter of a day read is strictly exclusive.  For a parse
able `since` instant, the rows returned are exactly the bucket rows whose
timestamp parses to a strictly later instant; in particular a record carrying
exactly the `since` timestamp is never returned. -/
theorem c8_since_strictly_exclusive (st : Store) (day sv : String) (th : Int)
    (hsv1 : sv ≠ "") (hsv2 : pyIsdigit sv = false)
    (hsv3 : isoEpoch (pyReplace sv "Z" "") = some th) :
    (∀ r : Plotted, r ∈ (api_day_rows st day (some sv)).2 ↔
        (r ∈ bucketOf (load_day_from_disk st day) day ∧
         ∃ ts, r.time = some ts ∧ ts ≠ "" ∧
           ∃ te, isoEpoch (pyReplace ts "Z" "") = some te ∧ th < te))
    ∧ ∀ r : Plotted, r.time = some sv → r ∉ (api_day_rows st day (some sv)).2 := by
  have hth : to_epoch sv = th := to_epoch_of_iso hsv1 hsv2 hsv3
  have hmem : ∀ r : Plotted, r ∈ (api_day_rows st day (some sv)).2 ↔
      (r ∈ bucketOf (load_day_from_disk st day) day ∧
       ∃ ts, r.time = some ts ∧ ts ≠ "" ∧
         ∃ te, isoEpoch (pyReplace ts "Z" "") = some te ∧ th < te) := by
    intro r
    have hred : (api_day_rows st day (some sv)).2
        = (List.filter (keepSince sv) (bucketOf (load_day_from_disk st day) day)).mergeSort
            (fun a b => decide (timeKey a ≤ timeKey b)) := by
      simp [api_day_rows, hsv1]
    rw [hred, List.mem_mergeSort, List.mem_filter, keepSince_iff, hth]
  refine ⟨hmem, ?_⟩
  intro r hr hin
  rcases (hmem r).mp hin with ⟨-, ts, hts, -, te, hiso, hlt⟩
  rw [hr] at hts
  injection hts with hts2
  subst hts2
  rw [hsv3] at hiso
  injection hiso with hiso2
  subst hiso2
  exact lt_irrefl th hlt

/-- Witness for C8, scenario C: reading day 2025-10-16 with
`since=2025-10-16T10:30:00` drops the record at exactly that instant and
keeps the strictly later one. -/
theorem c8_witness :
    wrecA.time = some "2025-10-16T10:30:00"
    ∧ wrecA ∉ (api_day_rows wstore "2025-10-16" (some "2025-10-16T10:30:00")).2
    ∧ wrecC ∈ (api_day_rows wstore "2025-10-16" (some "2025-10-16T10:30:00")).2 := by
  have h := c8_since_strictly_exclusive wstore "2025-10-16" "2025-10-16T10:30:00"
    1760610600 (by decide) (by decide) (by decide)
  refine ⟨rfl, h.2 wrecA rfl, ?_⟩
  exact (h.1 wrecC).mpr ⟨by decide, "2025-10-16T10:30:05", rfl, by decide,
    1760610605, by decide, by decide⟩

-- ==== Claim C9 ====

/-- C9: coordinate resolution never mixes sources.  When both SIM coordinates
parse, `choose_coords` returns exactly the SIM pair; otherwise it returns
exactly the Metadatos pair; in every case the result is one of those two
whole pairs. -/
theorem c9_coords_never_mixed (row : RawRow) :
    ((to_float (aget row KEY_SIM_LAT)).isSome ∧ (to_float (aget row KEY_SIM_LON)).isSome →
      choose_coords row = (to_float (aget row KEY_SIM_LAT), to_float (aget row KEY_SIM_LON)))
    ∧ ((to_float (aget row KEY_SIM_LAT) = none ∨ to_float (aget row KEY_SIM_LON) = none) →
      choose_coords row = (to_float (aget row KEY_META_LAT), to_float (aget row KEY_META_LON)))
    ∧ (choose_coords row = (to_float (aget row KEY_SIM_LAT), to_float (aget row KEY_SIM_LON))
      ∨ choose_coords row
          = (to_float (aget row KEY_META_LAT), to_float (aget row KEY_META_LON))) := by
  cases hlat : to_float (aget row KEY_SIM_LAT) <;>
    cases hlon : to_float (aget row KEY_SIM_LON) <;>
    simp [choose_coords, hlat, hlon]

/-- Witness for C9 on a row carrying both coordinate sources: the SIM pair
wins whole. -/
theorem c9_witness :
    choose_coords [(KEY_SIM_LAT, JVal.jstr "1.0"), (KEY_SIM_LON, JVal.jstr "2.0"), (KEY_META_LAT, JVal.jstr "9.0"), (KEY_META_LON, JVal.jstr "8.0")]
      = (to_float (aget [(KEY_SIM_LAT, JVal.jstr "1.0"), (KEY_SIM_LON, JVal.jstr "2.0"), (KEY_META_LAT, JVal.jstr "9.0"), (KEY_META_LON, JVal.jstr "8.0")] KEY_SIM_LAT),
         to_float (aget [(KEY_SIM_LAT, JVal.jstr "1.0"), (KEY_SIM_LON, JVal.jstr "2.0"), (KEY_META_LAT, JVal.jstr "9.0"), (KEY_META_LON, JVal.jstr "8.0")] KEY_SIM_LON)) := by
  exact (c9_coords_never_mixed _).1 ⟨by decide, by decide⟩

-- ==== Claim C10 ====

/-- C10: the day-mode read endpoint returns its rows sorted ascending by the
`time` key (missing timestamps sort as the empty string), whatever the
bucket's arrival order and whether or not a `since` filter was applied. -/
theorem c10_day_rows_sorted (st : Store) (day : String) (since : Option String) :
    List.Pairwise (fun a b : Plotted => timeKey a ≤ timeKey b)
      (api_day_rows st day since).2 := by
  have htrans : ∀ a b c : Plotted,
      (decide (timeKey a ≤ timeKey b)) = true →
      (decide (timeKey b ≤ timeKey c)) = true →
      (decide (timeKey a ≤ timeKey c)) = true := by
    intro a b c hab hbc
    simp only [decide_eq_true_eq] at *
    exact le_trans hab hbc
  have htotal : ∀ a b : Plotted,
      ((decide (timeKey a ≤ timeKey b)) || (decide (timeKey b ≤ timeKey a))) = true := by
    intro a b
    rcases le_total (timeKey a) (timeKey b) with h | h <;> simp [h]
  have hs := @List.sorted_mergeSort Plotted
    (fun a b => decide (timeKey a ≤ timeKey b)) htrans htotal
  refine List.Pairwise.imp ?_ (hs _)
  intro a b h
  simpa using h
